import Mathlib

/-!
Verification development for the ai-server repository (src/server.py and
src/telegram_bot.py). Python strings are modelled as lists of characters;
Python functions of the repository are translated into executable Lean
definitions; calls into external libraries (pdfplumber, python-docx,
pytesseract, the json module and the Gemini client) are modelled as
oracle parameters or as the parsed values they would produce, with
exceptions modelled by Except.
-/

namespace AiServer

/-- Python strings, modelled as lists of characters. -/
abbrev Str := List Char

/-- The backtick character, written via its code point. -/
def btChar : Char := Char.ofNat 96

/-- The opening-brace character, written via its code point. -/
def lbrace : Char := Char.ofNat 123

/-- The apostrophe character, written via its code point. -/
def aposChar : Char := Char.ofNat 39

/-- The whitespace set of Python str.strip with no argument. -/
def pyIsSpace (c : Char) : Bool :=
  c == ' ' || c == '\t' || c == '\n' || c == '\r' || c == '\x0b' || c == '\x0c'

/-- Drop leading characters satisfying p (left half of Python strip). -/
def stripLeftBy (p : Char → Bool) (s : Str) : Str := s.dropWhile p

/-- Drop trailing characters satisfying p (right half of Python strip). -/
def stripRightBy (p : Char → Bool) (s : Str) : Str := (s.reverse.dropWhile p).reverse

/-- Python str.strip(chars): drop the characters of the set from both ends. -/
def stripBy (p : Char → Bool) (s : Str) : Str := stripRightBy p (stripLeftBy p s)

/-- Python str.strip() with no argument. -/
def pyStrip (s : Str) : Str := stripBy pyIsSpace s

/-- Test for the backtick character. -/
def isBacktick (c : Char) : Bool := c == btChar

/-- Python str.strip(chr(96)): removes leading and trailing backticks only. -/
def stripBackticks (s : Str) : Str := stripBy isBacktick s

/-- Python s.replace(pat, empty, 1): remove the first occurrence of pat in s. -/
def replaceFirst (pat : Str) : Str → Str
  | [] => []
  | c :: rest =>
    if pat.isPrefixOf (c :: rest) then List.drop pat.length (c :: rest)
    else c :: replaceFirst pat rest

/-- The triple-backtick fence that opens a markdown code block. -/
def fenceStr : Str := [btChar, btChar, btChar]

/-- The language tag that may follow the opening fence. -/
def jsonTag : Str := "json".data

/-- A Python exception, carrying its message. -/
structure PyErr where
  msg : Str
deriving DecidableEq, Repr

/-- Result of parse_resume_with_gemini normalization: either the parsed JSON
value or the error record built in the except branch (server.py lines 141-145). -/
inductive ResumeResult (J : Type) where
  | parsed (value : J)
  | errorRec (error : Str) (raw_output : Str)
deriving DecidableEq, Repr

/-- The fixed error marker of the error record. -/
def jsonFailMsg : Str := "JSON parsing failed".data

/-- Cleaning step of parse_resume_with_gemini (server.py lines 132-137):
strip whitespace; if the result starts with a triple backtick, strip leading
and trailing backticks, remove the first occurrence of the substring json,
and strip whitespace again. -/
def clean_raw_output (responseText : Str) : Str :=
  if fenceStr.isPrefixOf (pyStrip responseText) then
    pyStrip (replaceFirst jsonTag (stripBackticks (pyStrip responseText)))
  else pyStrip responseText

/-- Normalization step of parse_resume_with_gemini (server.py lines 132-145):
clean the raw model output, attempt a strict JSON parse (modelled by the
oracle parse, whose failure models the exception of json.loads), and on
failure return the error record instead of propagating the exception. -/
def normalizeResumeJson {J : Type} (parse : Str → Except PyErr J) (responseText : Str) :
    ResumeResult J :=
  match parse (clean_raw_output responseText) with
  | .ok v => .parsed v
  | .error _ => .errorRec jsonFailMsg (clean_raw_output responseText)

/-- An uploaded byte stream, modelled by what each format library would
produce on it: asPdf is the list of pages pdfplumber would yield, each page
carrying the optional text of page.extract_text (None when no text layer);
asDocx is the list of paragraph texts python-docx would yield; asImage is
the text pytesseract OCR would yield. An error value models the exception
the library raises when it cannot open the stream. -/
structure RawFile where
  asPdf : Except PyErr (List (Option Str))
  asDocx : Except PyErr (List Str)
  asImage : Except PyErr Str

/-- A single newline character, the join separator of the extractors. -/
def nlStr : Str := ['\n']

/-- Python chr(10).join over a list of strings. -/
def joinNL (parts : List Str) : Str := (List.intersperse nlStr parts).flatten

/-- server.py lines 46-52: join the per-page texts with newlines, a page
with no extractable text contributing the empty string, then strip. -/
def extract_text_from_pdf (f : RawFile) : Except PyErr Str :=
  (f.asPdf).map (fun pages => pyStrip (joinNL (pages.map (fun o => o.getD []))))

/-- server.py lines 54-57: join the paragraph texts with newlines, then strip. -/
def extract_text_from_docx (f : RawFile) : Except PyErr Str :=
  (f.asDocx).map (fun paragraphs => pyStrip (joinNL paragraphs))

/-- server.py lines 59-62: OCR the image and strip the result. -/
def extract_text_from_image (f : RawFile) : Except PyErr Str :=
  (f.asImage).map pyStrip

/-- ASCII lowering of one character, modelling Python str.lower on filenames. -/
def asciiLower (c : Char) : Char :=
  if c.isUpper then Char.ofNat (c.toNat + 32) else c

/-- Python str.lower applied to a filename. -/
def pyLower (s : Str) : Str := s.map asciiLower

/-- Recognized filename suffixes. -/
def sufPdf : Str := ".pdf".data

/-- The docx suffix. -/
def sufDocx : Str := ".docx".data

/-- The png suffix. -/
def sufPng : Str := ".png".data

/-- The jpg suffix. -/
def sufJpg : Str := ".jpg".data

/-- The jpeg suffix. -/
def sufJpeg : Str := ".jpeg".data

/-- server.py lines 64-75: lower-case the filename and dispatch on its
suffix; an unrecognized or missing suffix falls back to PDF extraction. -/
def extract_text (filename : Str) (f : RawFile) : Except PyErr Str :=
  if sufPdf.isSuffixOf (pyLower filename) then extract_text_from_pdf f
  else if sufDocx.isSuffixOf (pyLower filename) then extract_text_from_docx f
  else if sufPng.isSuffixOf (pyLower filename) || sufJpg.isSuffixOf (pyLower filename) ||
      sufJpeg.isSuffixOf (pyLower filename) then
    extract_text_from_image f
  else extract_text_from_pdf f

/-- Response bodies the /extract-resume route can produce. -/
inductive RouteBody (J : Type) where
  | errNoFile
  | errNoSelected
  | errNoText
  | errServer (details : Str)
  | resume (value : ResumeResult J)
deriving DecidableEq, Repr

/-- server.py lines 150-172: the POST /extract-resume handler. The request
is modelled by the optional pair of filename and uploaded bytes (none when
the form field file is absent); llm is the oracle mapping the extracted
resume text to the text of the Gemini response (an error models an
exception raised by the client call); parse is the json.loads oracle. The
result pairs the HTTP status code with the body. The try block covers
extraction, the empty-text check and the Gemini call; any exception there
reaches the except branch and becomes a 500 Server error response. -/
def extract_resume {J : Type} (llm : Str → Except PyErr Str)
    (parse : Str → Except PyErr J) (req : Option (Str × RawFile)) :
    Nat × RouteBody J :=
  match req with
  | none => (400, .errNoFile)
  | some (fname, f) =>
    if fname = [] then (400, .errNoSelected)
    else
      match extract_text fname f with
      | .error e => (500, .errServer e.msg)
      | .ok raw_text =>
        if pyStrip raw_text = [] then (400, .errNoText)
        else
          match llm raw_text with
          | .error e => (500, .errServer e.msg)
          | .ok out => (200, .resume (normalizeResumeJson parse out))

/-- A wall-clock instant as datetime.now() yields it, including the
sub-second part that strftime with a seconds pattern discards. -/
structure PyDateTime where
  year : Nat
  month : Nat
  day : Nat
  hour : Nat
  minute : Nat
  second : Nat
  microsecond : Nat
deriving DecidableEq, Repr

/-- The zero digit. -/
def zeroChar : Char := '0'

/-- Decimal digits of a number, zero-padded on the left to width w. -/
def padTo (w : Nat) (n : Nat) : Str :=
  let ds := (Nat.repr n).data
  List.replicate (w - ds.length) zeroChar ++ ds

/-- telegram_bot.py line 61: datetime.now().strftime with the pattern
year-month-day hour:minute:second; the microsecond field is not printed,
so the stamp has second precision. -/
def strftimeSeconds (dt : PyDateTime) : Str :=
  padTo 4 dt.year ++ ['-'] ++ padTo 2 dt.month ++ ['-'] ++ padTo 2 dt.day ++ [' '] ++
  padTo 2 dt.hour ++ [':'] ++ padTo 2 dt.minute ++ [':'] ++ padTo 2 dt.second

/-- Equality of two instants up to second precision. -/
def sameToSecond (a b : PyDateTime) : Prop :=
  a.year = b.year ∧ a.month = b.month ∧ a.day = b.day ∧
  a.hour = b.hour ∧ a.minute = b.minute ∧ a.second = b.second

/-- One history entry as built in telegram_bot.py lines 60-64. -/
structure HistEntry where
  timestamp : Str
  sender : Str
  message : Str
deriving DecidableEq, Repr

/-- Build the entry dict of save_history from the current instant. -/
def mkEntry (dt : PyDateTime) (sender message : Str) : HistEntry :=
  { timestamp := strftimeSeconds dt, sender := sender, message := message }

/-- The history file of one user: absent when the path does not exist,
undecodable when json.load raises JSONDecodeError on its content, decoded
otherwise (the file only ever holds a JSON array of entries). -/
inductive HistFile where
  | absent
  | undecodable
  | decoded (entries : List HistEntry)
deriving DecidableEq, Repr

/-- telegram_bot.py lines 66-74: the read half of save_history; a missing
file or a JSONDecodeError both yield the empty list. -/
def read_history : HistFile → List HistEntry
  | .absent => []
  | .undecodable => []
  | .decoded l => l

/-- telegram_bot.py lines 59-79: read the existing sequence, append one
entry stamped with the current instant, and rewrite the whole file. -/
def save_history (st : HistFile) (dt : PyDateTime) (sender message : Str) : HistFile :=
  .decoded (read_history st ++ [mkEntry dt sender message])

/-- telegram_bot.py lines 100-106: the /clear command rewrites the file
with the empty JSON array. -/
def clear_history (_st : HistFile) : HistFile := .decoded []

/-- The per-user memory mapping: the JSON object of the memory file as an
insertion-ordered association list, matching Python dict order. -/
abbrev Mem := List (Str × Str)

/-- The memory file of one user: absent when the path does not exist,
undecodable when json.load raises on its content, stored otherwise. -/
inductive MemFile where
  | absent
  | undecodable
  | stored (m : Mem)
deriving DecidableEq, Repr

/-- The message of the JSONDecodeError that load_memory propagates. -/
def decodeErrMsg : Str := "Expecting value".data

/-- telegram_bot.py lines 45-50: return the parsed mapping when the file
exists, the empty mapping when it does not; json.load has no surrounding
try, so an undecodable file makes the call raise. -/
def load_memory : MemFile → Except PyErr Mem
  | .absent => .ok []
  | .undecodable => .error { msg := decodeErrMsg }
  | .stored m => .ok m

/-- telegram_bot.py lines 52-54: overwrite the user's memory file with the
serialized mapping. -/
def save_memory (m : Mem) : MemFile := .stored m

/-- Python dict assignment memory[key] = value on the association-list
model: update in place when the key exists, append otherwise. -/
def dictSet (m : Mem) (k v : Str) : Mem :=
  if m.any (fun p => p.1 = k) then m.map (fun p => if p.1 = k then (k, v) else p)
  else m ++ [(k, v)]

/-- Replies the bot handlers produce, kept structural: the payload data of
each reply rather than its rendered text. -/
inductive Reply where
  | usage
  | remembered (key value : Str)
  | memoryDump (m : Mem)
deriving DecidableEq, Repr

/-- The literal prefix removed from the /remember message text. -/
def rememberPrefix : Str := "/remember ".data

/-- Python s.split(sep, 1) when sep occurs: the parts before and after the
first occurrence. -/
def splitFirst (sep : Char) : Str → Str × Str
  | [] => ([], [])
  | c :: rest =>
    if c = sep then ([], rest)
    else
      let p := splitFirst sep rest
      (c :: p.1, p.2)

/-- telegram_bot.py lines 113-128: the /remember handler. Remove the
command prefix; without an equals sign reply with the usage text; with one,
split on the first equals sign, strip both halves, load the memory (an
undecodable file makes load_memory raise, the handler die and the stored
file stay as it was), set the key and save. The result pairs the memory
file after the handler with the reply or the escaped exception. -/
def remember (mf : MemFile) (msgText : Str) : MemFile × Except PyErr Reply :=
  let cmd := replaceFirst rememberPrefix msgText
  if '=' ∈ cmd then
    let kv := splitFirst '=' cmd
    let key := pyStrip kv.1
    let value := pyStrip kv.2
    match load_memory mf with
    | .error e => (mf, .error e)
    | .ok memory => (save_memory (dictSet memory key value), .ok (.remembered key value))
  else (mf, .ok .usage)

/-- telegram_bot.py lines 108-111: the /memory command loads the mapping
and replies with its dump; a load exception escapes. -/
def memory_cmd (mf : MemFile) : Except PyErr Reply :=
  (load_memory mf).map .memoryDump

/-- One part of a Gemini response candidate; text is None or a string. -/
structure GenaiPart where
  text : Option Str
deriving DecidableEq, Repr

/-- One response candidate; parts is None when content.parts is missing,
which makes iterating it raise. -/
structure GenaiCandidate where
  parts : Option (List GenaiPart)
deriving DecidableEq, Repr

/-- A Gemini generate_content response: the aggregated top-level text (None
possible) and the candidate list (None makes iterating it raise). -/
structure GenaiResponse where
  text : Option Str
  candidates : Option (List GenaiCandidate)
deriving DecidableEq, Repr

/-- Python truthiness of part.text: neither None nor empty. -/
def partTruthy (p : GenaiPart) : Bool :=
  match p.text with
  | none => false
  | some t => t ≠ []

/-- Concatenate the truthy texts of a part list (the inner for loop of the
handlers). -/
def concatParts (ps : List GenaiPart) : Str :=
  ps.foldl (fun acc p => if partTruthy p then acc ++ p.text.getD [] else acc) []

/-- telegram_bot.py lines 213-217: the for loop over response.candidates
inside the try block; a None candidate list or a None parts list raises,
and the exception discards whatever was accumulated. -/
def collectCandidateTexts (resp : GenaiResponse) : Except PyErr Str :=
  match resp.candidates with
  | none => .error { msg := "candidates is None".data }
  | some cands =>
    cands.foldlM
      (fun acc cand =>
        match cand.parts with
        | none => .error { msg := "parts is None".data }
        | some ps => .ok (acc ++ concatParts ps))
      []

/-- The fixed apology text of telegram_bot.py line 219, assembled around an
explicit apostrophe character. -/
def apology : Str :=
  "I couldn".data ++ [aposChar] ++ "t understand this image properly, sorry.".data

/-- telegram_bot.py lines 209-219: the reply text of the photo handler.
Start from response.text coerced to the empty string; when that is falsy,
concatenate the candidate texts, and only when that iteration raises
substitute the apology. -/
def photoAiText (resp : GenaiResponse) : Str :=
  if (resp.text).getD [] = [] then
    match collectCandidateTexts resp with
    | .ok s => s
    | .error _ => apology
  else (resp.text).getD []

/-- telegram_bot.py lines 156-159: the reply text of the text handler is
the concatenation of the truthy part texts, with no fallback of any kind. -/
def chatAiText (parts : List GenaiPart) : Str := concatParts parts

/-- The sender label of an inbound text message. -/
def senderYou : Str := "You".data

/-- The sender label of an inbound photo message. -/
def senderYouImage : Str := "You (image)".data

/-- The sender label of the assistant reply. -/
def senderAI : Str := "AI".data

/-- The placeholder message stored for a caption-less photo. -/
def imagePlaceholder : Str := "[Image]".data

/-- telegram_bot.py lines 164-166: the pairs the text handler passes to
save_history, in call order. -/
def chatHistoryWrites (userMsg aiText : Str) : List (Str × Str) :=
  [(senderYou, userMsg), (senderAI, aiText)]

/-- telegram_bot.py lines 224-226: the pairs the photo handler passes to
save_history, in call order; an empty caption is replaced by the
placeholder via Python or. -/
def photoHistoryWrites (caption aiText : Str) : List (Str × Str) :=
  [(senderYouImage, if caption = [] then imagePlaceholder else caption), (senderAI, aiText)]

/-- The sender labels that ever reach save_history. -/
def allowedSenders : List Str := [senderYou, senderYouImage, senderAI]

/-- Characters surviving a dropWhile never satisfy the dropped predicate at
the head. -/
lemma head_dropWhile_not (p : Char → Bool) : ∀ (l : Str) (c : Char),
    (l.dropWhile p).head? = some c → p c = false := by
  intro l
  induction l with
  | nil => intro c h; simp [List.dropWhile] at h
  | cons a t ih =>
    intro c h
    rw [List.dropWhile_cons] at h
    by_cases hp : p a = true
    · rw [if_pos hp] at h
      exact ih c h
    · rw [if_neg hp] at h
      rw [List.head?_cons] at h
      cases h
      simpa using hp

/-- The head of a nonempty prefix is the head of the whole list. -/
lemma prefix_head_eq {u v : Str} (h : u <+: v) {c : Char} (hc : u.head? = some c) :
    v.head? = some c := by
  obtain ⟨t, rfl⟩ := h
  cases u with
  | nil => simp at hc
  | cons a u2 => simpa using hc

/-- Right-stripping yields a prefix of the original list. -/
lemma stripRightBy_pref (p : Char → Bool) (l : Str) : stripRightBy p l <+: l := by
  unfold stripRightBy
  conv_rhs => rw [← List.reverse_reverse l]
  exact List.reverse_prefix.mpr (List.dropWhile_suffix p)

/-- The head character of a two-sided strip never satisfies the predicate. -/
lemma stripBy_head (p : Char → Bool) (l : Str) (c : Char)
    (h : (stripBy p l).head? = some c) : p c = false := by
  unfold stripBy at h
  have h2 := prefix_head_eq (stripRightBy_pref p (stripLeftBy p l)) h
  exact head_dropWhile_not p l c h2

/-- The last character of a two-sided strip never satisfies the predicate. -/
lemma stripBy_getLast (p : Char → Bool) (l : Str) (c : Char)
    (h : (stripBy p l).getLast? = some c) : p c = false := by
  unfold stripBy stripRightBy at h
  rw [List.getLast?_reverse] at h
  exact head_dropWhile_not p _ c h

/-- A list whose head does not satisfy p is unchanged by dropWhile. -/
lemma dropWhile_eq_self_of_head (p : Char → Bool) (l : Str)
    (h : ∀ c, l.head? = some c → p c = false) : l.dropWhile p = l := by
  cases l with
  | nil => rfl
  | cons a t =>
    rw [List.dropWhile_cons, if_neg]
    simp [h a (by rw [List.head?_cons])]

/-- A list with clean head and clean tail is a strip fixpoint. -/
lemma stripBy_eq_self (p : Char → Bool) (l : Str)
    (hh : ∀ c, l.head? = some c → p c = false)
    (hl : ∀ c, l.getLast? = some c → p c = false) : stripBy p l = l := by
  unfold stripBy stripLeftBy stripRightBy
  rw [dropWhile_eq_self_of_head p l hh]
  rw [dropWhile_eq_self_of_head p l.reverse
    (fun c hc => hl c (by rwa [List.head?_reverse] at hc))]
  exact List.reverse_reverse l

/-- Dropping over a fully-dropped block lands on the clean remainder. -/
lemma dropWhile_append_all (p : Char → Bool) : ∀ (l Y : Str), (∀ c ∈ l, p c = true) →
    (∀ c, Y.head? = some c → p c = false) → List.dropWhile p (l ++ Y) = Y := by
  intro l
  induction l with
  | nil => intro Y _ hY; exact dropWhile_eq_self_of_head p Y hY
  | cons a t ih =>
    intro Y hl hY
    rw [List.cons_append, List.dropWhile_cons, if_pos (hl a (by simp))]
    exact ih Y (fun c hc => hl c (by simp [hc])) hY

/-- Right-stripping a fully-stripped block off a clean-tailed list. -/
lemma stripRightBy_append_all (p : Char → Bool) (Z l : Str) (hl : ∀ c ∈ l, p c = true)
    (hZ : ∀ c, Z.getLast? = some c → p c = false) :
    stripRightBy p (Z ++ l) = Z := by
  unfold stripRightBy
  rw [List.reverse_append]
  rw [dropWhile_append_all p l.reverse Z.reverse
    (fun c hc => hl c (List.mem_reverse.mp hc))
    (fun c hc => hZ c (by rwa [List.head?_reverse] at hc))]
  exact List.reverse_reverse Z

/-- Stripping commutes off one leading stripped character. -/
lemma stripBy_cons_true (p : Char → Bool) (a : Char) (l : Str) (ha : p a = true) :
    stripBy p (a :: l) = stripBy p l := by
  unfold stripBy stripLeftBy
  rw [List.dropWhile_cons, if_pos ha]

/-- Right-stripping swallows one trailing stripped character. -/
lemma stripRightBy_append_true (p : Char → Bool) (l : Str) (a : Char) (ha : p a = true) :
    stripRightBy p (l ++ [a]) = stripRightBy p l := by
  unfold stripRightBy
  rw [List.reverse_append]
  rw [show [a].reverse ++ l.reverse = a :: l.reverse from rfl]
  rw [List.dropWhile_cons, if_pos ha]

/-- Stripping swallows one trailing stripped character. -/
lemma stripBy_append_true (p : Char → Bool) (l : Str) (a : Char) (ha : p a = true) :
    stripBy p (l ++ [a]) = stripBy p l := by
  unfold stripBy stripLeftBy
  rw [List.dropWhile_append]
  by_cases he : (l.dropWhile p).isEmpty = true
  · rw [if_pos he]
    rw [show List.dropWhile p [a] = List.dropWhile p [] from by
      rw [show [a] = a :: ([] : Str) from rfl, List.dropWhile_cons, if_pos ha]]
    rw [List.isEmpty_iff] at he
    rw [he]
    rfl
  · rw [if_neg he]
    exact stripRightBy_append_true p _ a ha

/-- Python strip absorbs a leading newline. -/
lemma pyStrip_cons_nl (l : Str) : pyStrip ('\n' :: l) = pyStrip l :=
  stripBy_cons_true pyIsSpace '\n' l (by decide)

/-- Python strip absorbs a trailing newline. -/
lemma pyStrip_append_nl (l : Str) : pyStrip (l ++ ['\n']) = pyStrip l :=
  stripBy_append_true pyIsSpace l '\n' (by decide)

/-- Removing a pattern sitting at the very front removes exactly it. -/
lemma replaceFirst_at_head (pat rest : Str) (hp : pat ≠ []) :
    replaceFirst pat (pat ++ rest) = rest := by
  cases pat with
  | nil => exact absurd rfl hp
  | cons a p2 =>
    rw [List.cons_append]
    unfold replaceFirst
    rw [if_pos (List.isPrefixOf_iff_prefix.mpr ⟨rest, by rw [List.cons_append]⟩)]
    rw [List.length_cons, List.drop_succ_cons, List.drop_left]

/-- A list starting with an opening brace does not start with the fence. -/
lemma fence_not_prefix_lbrace (l : Str) (h : l.head? = some lbrace) :
    fenceStr.isPrefixOf l = false := by
  cases l with
  | nil => simp at h
  | cons a t =>
    rw [List.head?_cons] at h
    cases h
    rw [show fenceStr = btChar :: [btChar, btChar] from rfl]
    simp [List.isPrefixOf, (by decide : (btChar == lbrace) = false)]

/-- Character form of the fence constant. -/
lemma fence_chars : fenceStr = [btChar, btChar, btChar] := rfl

/-- Character form of the json tag. -/
lemma jsonTag_chars : jsonTag = ['j', 's', 'o', 'n'] := rfl

/-- Membership form of the fence content. -/
lemma mem_fence_backtick (c : Char) (hc : c ∈ fenceStr) : isBacktick c = true := by
  rw [fence_chars] at hc
  simp at hc
  subst hc
  decide

/-- Cleaning of a well-formed tagged fence around a body whose last
character is not a backtick: the fence backticks and the tag vanish and the
stripped body remains. -/
lemma clean_fenced (M : Str) (hM : ∀ c, M.getLast? = some c → isBacktick c = false) :
    clean_raw_output (fenceStr ++ (jsonTag ++ (M ++ fenceStr))) = pyStrip M := by
  have hstrip : pyStrip (fenceStr ++ (jsonTag ++ (M ++ fenceStr))) =
      fenceStr ++ (jsonTag ++ (M ++ fenceStr)) := by
    apply stripBy_eq_self
    · intro c hc
      rw [show fenceStr ++ (jsonTag ++ (M ++ fenceStr)) =
        btChar :: ([btChar, btChar] ++ (jsonTag ++ (M ++ fenceStr))) from rfl] at hc
      rw [List.head?_cons] at hc
      cases hc
      decide
    · intro c hc
      rw [show fenceStr ++ (jsonTag ++ (M ++ fenceStr)) =
        (fenceStr ++ jsonTag ++ M ++ [btChar, btChar]) ++ [btChar] from by
          simp [fence_chars]] at hc
      rw [List.getLast?_concat] at hc
      cases hc
      decide
  have hfence : fenceStr.isPrefixOf (fenceStr ++ (jsonTag ++ (M ++ fenceStr))) = true :=
    List.isPrefixOf_iff_prefix.mpr (List.prefix_append _ _)
  have hdrop : List.dropWhile isBacktick (fenceStr ++ (jsonTag ++ (M ++ fenceStr))) =
      jsonTag ++ (M ++ fenceStr) := by
    apply dropWhile_append_all
    · exact mem_fence_backtick
    · intro c hc
      rw [show jsonTag ++ (M ++ fenceStr) =
        'j' :: (['s', 'o', 'n'] ++ (M ++ fenceStr)) from rfl, List.head?_cons] at hc
      cases hc
      decide
  have hback : stripBackticks (fenceStr ++ (jsonTag ++ (M ++ fenceStr))) =
      jsonTag ++ M := by
    unfold stripBackticks stripBy stripLeftBy
    rw [hdrop]
    rw [show jsonTag ++ (M ++ fenceStr) = (jsonTag ++ M) ++ fenceStr from by simp]
    apply stripRightBy_append_all
    · exact mem_fence_backtick
    · intro c hc
      rcases M.eq_nil_or_concat with hMnil | ⟨M0, b, hM2⟩
      · subst hMnil
        rw [show jsonTag ++ ([] : Str) = ['j', 's', 'o'] ++ ['n'] from by
          rw [List.append_nil, jsonTag_chars]
          decide] at hc
        rw [List.getLast?_concat] at hc
        cases hc
        decide
      · rw [List.concat_eq_append] at hM2
        subst hM2
        rw [show jsonTag ++ (M0 ++ [b]) = (jsonTag ++ M0) ++ [b] from by simp,
          List.getLast?_concat] at hc
        cases hc
        exact hM c (by rw [List.getLast?_concat])
  unfold clean_raw_output
  rw [hstrip, if_pos hfence, hback]
  rw [replaceFirst_at_head jsonTag M (by decide)]

/-- Cleaning as claim C1 words it, for comparison against the code: trim; on
a fenced text remove every backtick character and one leading occurrence of
a bare json language tag, and nothing else beyond a final trim. -/
def cleanSpecC1 (responseText : Str) : Str :=
  if fenceStr.isPrefixOf (pyStrip responseText) then
    if jsonTag.isPrefixOf (pyStrip ((pyStrip responseText).filter (fun c => !(isBacktick c)))) then
      pyStrip (List.drop jsonTag.length
        (pyStrip ((pyStrip responseText).filter (fun c => !(isBacktick c)))))
    else pyStrip ((pyStrip responseText).filter (fun c => !(isBacktick c)))
  else pyStrip responseText

/-- A fenced model output with no language tag whose JSON body contains the
substring json inside a string value. -/
def c1CexInput : Str := fenceStr ++ nlStr ++ "\x7b\"a\": \"json\"\x7d".data ++ nlStr ++ fenceStr

/-- What the code actually produces on c1CexInput. -/
def c1CexActual : Str := "\x7b\"a\": \"\"\x7d".data

/-- What claim C1 predicts on c1CexInput: the body untouched. -/
def c1CexClaimed : Str := "\x7b\"a\": \"json\"\x7d".data

/-- C1 is false as stated: on a fenced output with no language tag, the code
removes the first occurrence of the substring json anywhere in the body (here
inside a JSON string value), not only a leading bare language tag, so the
cleaned text differs from what the claim predicts. -/
theorem c1_counterexample :
    clean_raw_output c1CexInput = c1CexActual ∧
    cleanSpecC1 c1CexInput = c1CexClaimed ∧
    c1CexActual ≠ c1CexClaimed := by
  refine ⟨by decide, by decide, by decide⟩

/-- C1 (amended): for raw output that is exactly a backtick fence tagged
json around a body whose last character is not a backtick, the cleaning
strips the leading and trailing backticks and removes the tag (the first
occurrence of the substring json, which here is the tag itself), leaving the
trimmed body; in general the code removes the first occurrence of json
anywhere after stripping only the leading and trailing backticks. -/
theorem c1_amended (body : Str) (h : ∀ c, body.getLast? = some c → isBacktick c = false) :
    clean_raw_output (fenceStr ++ (jsonTag ++ (body ++ fenceStr))) = pyStrip body :=
  clean_fenced body h

/-- A concrete JSON object body for the C1 witness. -/
def c1WitnessBody : Str := "\x7b\"a\": 1\x7d".data

/-- Witness for the amended C1 at a concrete tagged fence. -/
theorem c1_witness :
    clean_raw_output (fenceStr ++ (jsonTag ++ (c1WitnessBody ++ fenceStr))) = pyStrip c1WitnessBody :=
  c1_amended c1WitnessBody (by
    intro c hc
    have h2 : some (Char.ofNat 125) = some c :=
      (by decide : c1WitnessBody.getLast? = some (Char.ofNat 125)).symm.trans hc
    cases h2
    decide)

/-- C2: when the strict parse of the cleaned text fails, normalization
returns the error record carrying the fixed marker and the cleaned text
verbatim instead of propagating the exception; when it succeeds, the parsed
value is returned as-is. The function is total, so no exception can cross it. -/
theorem c2_parse_failure_recovery {J : Type} (parse : Str → Except PyErr J) (raw : Str) :
    (∀ e, parse (clean_raw_output raw) = .error e →
      normalizeResumeJson parse raw = .errorRec jsonFailMsg (clean_raw_output raw))
    ∧ (∀ v, parse (clean_raw_output raw) = .ok v →
      normalizeResumeJson parse raw = .parsed v) := by
  constructor
  · intro e he
    unfold normalizeResumeJson
    rw [he]
  · intro v hv
    unfold normalizeResumeJson
    rw [hv]

/-- A json.loads oracle that always fails, for the C2 witness. -/
def parseFailNat : Str → Except PyErr Nat := fun _ => .error { msg := [] }

/-- The syntactically invalid input of the spec example. -/
def c2RawEx : Str := "\x7bnot json".data

/-- Witness for C2 at the spec's own invalid-input example. -/
theorem c2_witness :
    normalizeResumeJson parseFailNat c2RawEx = .errorRec jsonFailMsg (clean_raw_output c2RawEx) :=
  (c2_parse_failure_recovery parseFailNat c2RawEx).1 { msg := [] } rfl

/-- C9: the fenced form of a JSON object text cleans to the same string as
the unfenced form, so normalization gives the same result for both under any
parse oracle. -/
theorem c9_fenced_equals_unfenced {J : Type} (parse : Str → Except PyErr J) (j : Str)
    (h : (pyStrip j).head? = some lbrace) :
    normalizeResumeJson parse (fenceStr ++ (jsonTag ++ ((nlStr ++ (j ++ nlStr)) ++ fenceStr)))
      = normalizeResumeJson parse j := by
  have hclean1 : clean_raw_output (fenceStr ++ (jsonTag ++ ((nlStr ++ (j ++ nlStr)) ++ fenceStr)))
      = pyStrip j := by
    rw [clean_fenced (nlStr ++ (j ++ nlStr)) (by
      intro c hc
      rw [show nlStr ++ (j ++ nlStr) = (nlStr ++ j) ++ ['\n'] from by simp [nlStr],
        List.getLast?_concat] at hc
      cases hc
      decide)]
    rw [show nlStr ++ (j ++ nlStr) = '\n' :: (j ++ ['\n']) from rfl]
    rw [pyStrip_cons_nl, pyStrip_append_nl]
  have hclean2 : clean_raw_output j = pyStrip j := by
    unfold clean_raw_output
    rw [if_neg (by rw [fence_not_prefix_lbrace (pyStrip j) h]; simp)]
  unfold normalizeResumeJson
  rw [hclean1, hclean2]

/-- A json.loads oracle returning the length, for the C9 witness. -/
def parseLen : Str → Except PyErr Nat := fun s => .ok s.length

/-- A concrete JSON object text for the C9 witness. -/
def c9WitnessJson : Str := "\x7b\"name\": \"Jane\"\x7d".data

/-- Witness for C9 at a concrete JSON object text. -/
theorem c9_witness :
    normalizeResumeJson parseLen
        (fenceStr ++ (jsonTag ++ ((nlStr ++ (c9WitnessJson ++ nlStr)) ++ fenceStr)))
      = normalizeResumeJson parseLen c9WitnessJson :=
  c9_fenced_equals_unfenced parseLen c9WitnessJson (by decide)

/-- A corrupt upload: every format library raises on it. -/
def c3BadFile : RawFile :=
  { asPdf := .error { msg := "No .Root object".data }
  , asDocx := .error { msg := [] }
  , asImage := .error { msg := [] } }

/-- A Gemini oracle never reached by the C3 scenario. -/
def c3Llm : Str → Except PyErr Str := fun _ => .ok []

/-- A json.loads oracle never reached by the C3 scenario. -/
def c3Parse : Str → Except PyErr Nat := fun _ => .error { msg := [] }

/-- The pdf filename of the C3 scenario. -/
def c3Fname : Str := "resume.pdf".data

/-- C3 is false as stated: an upload whose format parser cannot open the
byte stream makes the route answer with HTTP status 500 and the generic
Server error body, not a client-visible 400-equivalent error. -/
theorem c3_counterexample :
    (extract_resume c3Llm c3Parse (some (c3Fname, c3BadFile))).1 = 500 ∧
    (extract_resume c3Llm c3Parse (some (c3Fname, c3BadFile))).1 ≠ 400 := by
  refine ⟨by decide, by decide⟩

/-- C3 (amended): when extraction raises (corrupt file, wrong format), the
operation is not retried and the exception is surfaced to the HTTP caller as
a 500 response whose body is the Server error record carrying the message. -/
theorem c3_amended {J : Type} (llm : Str → Except PyErr Str) (parse : Str → Except PyErr J)
    (fname : Str) (f : RawFile) (e : PyErr)
    (hname : fname ≠ []) (hext : extract_text fname f = .error e) :
    extract_resume llm parse (some (fname, f)) = (500, .errServer e.msg) := by
  simp only [extract_resume]
  rw [if_neg hname, hext]

/-- Witness for the amended C3 at the concrete corrupt upload. -/
theorem c3_witness :
    extract_resume c3Llm c3Parse (some (c3Fname, c3BadFile)) =
      (500, .errServer "No .Root object".data) :=
  c3_amended c3Llm c3Parse c3Fname c3BadFile { msg := "No .Root object".data }
    (by decide) rfl

/-- A response with empty aggregated text and an empty candidate list. -/
def c4RespEmpty : GenaiResponse := { text := some [], candidates := some [] }

/-- C4 is false as stated: a response whose aggregated text is empty and
whose candidate list is empty (so the fallback loop runs and raises nothing)
yields the empty reply, with no apology substituted, so the relayed reply
can be empty. -/
theorem c4_counterexample :
    photoAiText c4RespEmpty = [] ∧ photoAiText c4RespEmpty ≠ apology := by
  refine ⟨by decide, by decide⟩

/-- C4 (amended): the photo handler prefers the non-empty aggregated text;
otherwise it concatenates the text-bearing parts of the candidates, and the
fixed apology is substituted only when that iteration raises (candidates or
parts missing) — a successful but empty concatenation is relayed as an empty
reply, and the text handler concatenates parts with no fallback at all. -/
theorem c4_amended (resp : GenaiResponse) :
    ((resp.text).getD [] ≠ [] → photoAiText resp = (resp.text).getD [])
    ∧ (∀ s, (resp.text).getD [] = [] → collectCandidateTexts resp = .ok s →
        photoAiText resp = s)
    ∧ (∀ e, (resp.text).getD [] = [] → collectCandidateTexts resp = .error e →
        photoAiText resp = apology)
    ∧ chatAiText [] = [] := by
  refine ⟨?_, ?_, ?_, rfl⟩
  · intro h
    unfold photoAiText
    rw [if_neg h]
  · intro s h hok
    unfold photoAiText
    rw [if_pos h, hok]
  · intro e h herr
    unfold photoAiText
    rw [if_pos h, herr]

/-- A response carrying a non-empty aggregated text. -/
def c4RespText : GenaiResponse := { text := some "hi".data, candidates := none }

/-- A response with no text and no candidates attribute, making the
fallback loop raise. -/
def c4RespNone : GenaiResponse := { text := none, candidates := none }

/-- Witness for the amended C4: the aggregated-text branch and the apology
branch at concrete responses. -/
theorem c4_witness :
    photoAiText c4RespText = "hi".data ∧ photoAiText c4RespNone = apology :=
  ⟨(c4_amended c4RespText).1 (by decide),
   (c4_amended c4RespNone).2.2.1 { msg := "candidates is None".data } rfl rfl⟩

/-- C5: every entry a handler appends to the history log carries one of the
three sender labels, the message text it was called with, and the wall-clock
stamp of the call instant formatted at second precision (two instants equal
up to seconds produce the same stamp). -/
theorem c5_history_entry_shape (st : HistFile) (dt : PyDateTime) (sender msg : Str)
    (hs : (∃ uM aT, (sender, msg) ∈ chatHistoryWrites uM aT) ∨
          (∃ cap aT, (sender, msg) ∈ photoHistoryWrites cap aT)) :
    save_history st dt sender msg = .decoded (read_history st ++ [mkEntry dt sender msg])
    ∧ sender ∈ allowedSenders
    ∧ (∀ dt2, sameToSecond dt dt2 → strftimeSeconds dt = strftimeSeconds dt2) := by
  refine ⟨rfl, ?_, ?_⟩
  · rcases hs with ⟨uM, aT, hm⟩ | ⟨cap, aT, hm⟩
    · simp only [chatHistoryWrites, List.mem_cons, List.not_mem_nil, or_false,
        Prod.mk.injEq] at hm
      rcases hm with ⟨h1, _⟩ | ⟨h1, _⟩ <;> subst h1 <;> simp [allowedSenders]
    · simp only [photoHistoryWrites, List.mem_cons, List.not_mem_nil, or_false,
        Prod.mk.injEq] at hm
      rcases hm with ⟨h1, _⟩ | ⟨h1, _⟩ <;> subst h1 <;> simp [allowedSenders]
  · intro dt2 hsec
    obtain ⟨h1, h2, h3, h4, h5, h6⟩ := hsec
    unfold strftimeSeconds
    rw [h1, h2, h3, h4, h5, h6]

/-- A concrete call instant, with a nonzero sub-second part. -/
def c5Instant : PyDateTime :=
  { year := 2026, month := 10, day := 12, hour := 1, minute := 2, second := 3,
    microsecond := 999999 }

/-- The user message of the C5 witness. -/
def c5Msg : Str := "hello".data

/-- Witness for C5 at the first write of the text handler. -/
theorem c5_witness :
    save_history .absent c5Instant senderYou c5Msg =
        .decoded (read_history .absent ++ [mkEntry c5Instant senderYou c5Msg])
    ∧ senderYou ∈ allowedSenders
    ∧ (∀ dt2, sameToSecond c5Instant dt2 → strftimeSeconds c5Instant = strftimeSeconds dt2) :=
  c5_history_entry_shape .absent c5Instant senderYou c5Msg
    (Or.inl ⟨c5Msg, [], by decide⟩)

/-- Results of Except.map on a stripped projection keep clean edges. -/
lemma map_pyStrip_ok {α : Type} (r : Except PyErr α) (g : α → Str) (t : Str)
    (h : r.map (fun x => pyStrip (g x)) = .ok t) :
    (∀ c, t.head? = some c → pyIsSpace c = false) ∧
    (∀ c, t.getLast? = some c → pyIsSpace c = false) := by
  cases r with
  | error e => simp [Except.map] at h
  | ok x =>
    simp [Except.map] at h
    subst h
    exact ⟨fun c hc => stripBy_head _ _ _ hc, fun c hc => stripBy_getLast _ _ _ hc⟩

/-- C6: extraction routes on the lower-cased filename suffix — pdf to the
page-joining PDF extractor, docx to the paragraph-joining extractor, the
three image suffixes to OCR, and anything else falls back to the PDF
extractor — and every successfully extracted text is trimmed, having no
leading or trailing whitespace character. -/
theorem c6_extract_routing (filename : Str) (f : RawFile) :
    (sufPdf.isSuffixOf (pyLower filename) = true →
      extract_text filename f = extract_text_from_pdf f)
    ∧ (sufPdf.isSuffixOf (pyLower filename) = false →
       sufDocx.isSuffixOf (pyLower filename) = true →
      extract_text filename f = extract_text_from_docx f)
    ∧ (sufPdf.isSuffixOf (pyLower filename) = false →
       sufDocx.isSuffixOf (pyLower filename) = false →
       (sufPng.isSuffixOf (pyLower filename) || sufJpg.isSuffixOf (pyLower filename) ||
        sufJpeg.isSuffixOf (pyLower filename)) = true →
      extract_text filename f = extract_text_from_image f)
    ∧ (sufPdf.isSuffixOf (pyLower filename) = false →
       sufDocx.isSuffixOf (pyLower filename) = false →
       (sufPng.isSuffixOf (pyLower filename) || sufJpg.isSuffixOf (pyLower filename) ||
        sufJpeg.isSuffixOf (pyLower filename)) = false →
      extract_text filename f = extract_text_from_pdf f)
    ∧ (∀ t, extract_text filename f = .ok t →
        (∀ c, t.head? = some c → pyIsSpace c = false) ∧
        (∀ c, t.getLast? = some c → pyIsSpace c = false)) := by
  refine ⟨?_, ?_, ?_, ?_, ?_⟩
  · intro h1
    unfold extract_text
    rw [if_pos h1]
  · intro h1 h2
    unfold extract_text
    rw [if_neg (by simp [h1]), if_pos h2]
  · intro h1 h2 h3
    unfold extract_text
    rw [if_neg (by simp [h1]), if_neg (by simp [h2]), if_pos h3]
  · intro h1 h2 h3
    unfold extract_text
    rw [if_neg (by simp [h1]), if_neg (by simp [h2]), if_neg (by simp [h3])]
  · intro t h
    unfold extract_text at h
    split_ifs at h
    · exact map_pyStrip_ok f.asPdf _ t h
    · exact map_pyStrip_ok f.asDocx _ t h
    · exact map_pyStrip_ok f.asImage id t h
    · exact map_pyStrip_ok f.asPdf _ t h

/-- A filename whose suffix only matches pdf after lower-casing. -/
def c6Fname : Str := "CV.PdF".data

/-- A readable upload whose middle page has no text layer. -/
def c6File : RawFile :=
  { asPdf := .ok [some "a".data, none, some "b".data]
  , asDocx := .ok []
  , asImage := .ok [] }

/-- Witness for C6: the pdf branch at a mixed-case filename, evaluated. -/
theorem c6_witness :
    sufPdf.isSuffixOf (pyLower c6Fname) = true
    ∧ extract_text c6Fname c6File = extract_text_from_pdf c6File :=
  ⟨by decide, (c6_extract_routing c6Fname c6File).1 (by decide)⟩

/-- C7: save_history reads the existing sequence, treating an absent or
undecodable record as empty, appends exactly one entry stamped at the call
instant, and rewrites the full sequence; from no history, two calls produce
the two entries in call order with their sender and message pairing kept. -/
theorem c7_append_history (st : HistFile) (dt dt1 dt2 : PyDateTime)
    (s s1 s2 m m1 m2 : Str) :
    save_history st dt s m = .decoded (read_history st ++ [mkEntry dt s m])
    ∧ read_history .undecodable = []
    ∧ read_history .absent = []
    ∧ save_history (save_history .absent dt1 s1 m1) dt2 s2 m2
        = .decoded [mkEntry dt1 s1 m1, mkEntry dt2 s2 m2] := by
  refine ⟨rfl, rfl, rfl, ?_⟩
  simp [save_history, read_history]

/-- C8: loading memory with no backing record yields the empty mapping, and
a save followed by a load returns exactly the saved pairs. -/
theorem c8_memory_roundtrip (m : Mem) :
    load_memory .absent = .ok [] ∧ load_memory (save_memory m) = .ok m :=
  ⟨rfl, rfl⟩

/-- C10: a memory record that exists but does not parse makes load_memory
raise instead of returning an empty mapping, so the memory command fails and
a well-formed remember command fails with the stored record left unchanged. -/
theorem c10_corrupt_memory_propagates (msgText : Str) :
    (∃ e, load_memory .undecodable = .error e)
    ∧ (∃ e, memory_cmd .undecodable = .error e)
    ∧ ('=' ∈ replaceFirst rememberPrefix msgText →
        (remember .undecodable msgText).1 = .undecodable
        ∧ ∃ e, (remember .undecodable msgText).2 = .error e) := by
  refine ⟨⟨_, rfl⟩, ⟨_, rfl⟩, ?_⟩
  intro h
  unfold remember
  rw [if_pos h]
  exact ⟨rfl, _, rfl⟩

/-- The remember command of the spec scenario. -/
def c10Msg : Str := "/remember favorite_color=blue".data

/-- Witness for C10 at the concrete remember command. -/
theorem c10_witness :
    (remember .undecodable c10Msg).1 = .undecodable
    ∧ ∃ e, (remember .undecodable c10Msg).2 = .error e :=
  (c10_corrupt_memory_propagates c10Msg).2.2 (by decide)

end AiServer
